import Mathlib

/-!
Verification development for the Gemini image MCP server.

The definitions below are a shallow embedding of the server's core code:
the request pipeline of `callGeminiGenerate` (input resolution, request
part construction, the retry loop over HTTP attempts) and the persistence
path logic of `maybeSaveImage` (extension resolution and the file-name
collision loop).  Network attempts are modelled by an oracle
`outcomes : Nat -> AttemptOutcome` giving the observable result of each
fetch; the filesystem is modelled by a list of existing paths and a
file-reading oracle.
-/

/-! ### Decimal rendering of numbers

Models JavaScript template interpolation of a number (decimal digits),
as used in the source's template literals. Structural fuel
recursion keeps it kernel-computable. -/

/-- Decimal digit characters of `n`, with `fuel` bounding the recursion depth. -/
def natDigitsAux : Nat → Nat → List Char
  | 0, _ => []
  | fuel + 1, n =>
    if n < 10 then [Nat.digitChar n]
    else natDigitsAux fuel (n / 10) ++ [Nat.digitChar (n % 10)]

/-- Decimal digit characters of `n`. -/
def natDigits (n : Nat) : List Char := natDigitsAux (n + 1) n

/-- Decimal string of a natural number, modelling JS number-to-string conversion. -/
def natToString (n : Nat) : String := String.mk (natDigits n)

/-! ### Retry configuration (source constants) -/

/-- `const MAX_RETRIES = 3`. -/
def MAX_RETRIES : Nat := 3

/-- `const BASE_DELAY = 1000` (milliseconds). -/
def BASE_DELAY : Nat := 1000

/-- `const REQUEST_TIMEOUT = 60000` (milliseconds). -/
def REQUEST_TIMEOUT : Nat := 60000

/-- `shouldRetry`: `status === 429 || (status >= 500 && status < 600)`. -/
def shouldRetry (status : Nat) : Bool :=
  status == 429 || (decide (500 ≤ status) && decide (status < 600))

/-- `calculateDelay`: `BASE_DELAY * Math.pow(2, attempt) + Math.random() * 1000`,
with `rand` the value drawn by `Math.random()`. -/
def calculateDelay (attempt : Nat) (rand : ℚ) : ℚ :=
  (BASE_DELAY : ℚ) * 2 ^ attempt + rand * 1000

/-! ### Data model -/

/-- `InlineImageInput`: base64 data, path, and MIME type, all optional. -/
structure InlineImageInput where
  dataBase64 : Option String
  path : Option String
  mimeType : Option String
deriving DecidableEq

/-- `GenerateRequest`. -/
structure GenerateRequest where
  prompt : String
  images : Option (List InlineImageInput)
  mimeType : Option String
  saveToFilePath : Option String
deriving DecidableEq

/-- A request part pushed by `toInlineDataParts`: `{ inline_data: { mime_type, data } }`. -/
structure InlineDataPart where
  mime_type : String
  data : String
deriving DecidableEq

/-- A part of the outgoing request body: `{ text }` or `{ inline_data }`. -/
inductive ReqPart where
  | text (text : String)
  | inline_data (mime_type data : String)
deriving DecidableEq

/-- `inlineData` field of a response part. -/
structure RespInlineData where
  data : Option String
  mimeType : Option String
deriving DecidableEq

/-- One part of a response candidate's content. -/
structure RespPart where
  inlineData : Option RespInlineData
  text : Option String
deriving DecidableEq

/-- `content` of a response candidate. -/
structure CandContent where
  parts : Option (List RespPart)
deriving DecidableEq

/-- One candidate of `GeminiGenerateResponse`. -/
structure Candidate where
  content : Option CandContent
deriving DecidableEq

/-- Decoded JSON body of a success response. -/
structure GeminiGenerateResponse where
  candidates : Option (List Candidate)
deriving DecidableEq

/-- A decoded result image: `{ imageBase64, mimeType }`. -/
structure DecodedImage where
  imageBase64 : String
  mimeType : String
deriving DecidableEq

/-- JS truthiness test on an optional string: `undefined` and `''` are falsy. -/
def jsFalsyStr : Option String → Bool
  | none => true
  | some s => s == ""

/-! ### Input resolution (`toInlineDataParts`) -/

/-- Body of the `for (const input of inputs)` loop in `toInlineDataParts`.
`readF` models `fileToBase64` (resolve the path, read the file and base64-encode
it), returning the thrown error message on failure. -/
def resolveOne (readF : String → Except String String) (input : InlineImageInput) :
    Except String InlineDataPart :=
  let mime := input.mimeType.getD "image/png"
  let read : Except String (Option String) :=
    if jsFalsyStr input.dataBase64 && !jsFalsyStr input.path then
      match input.path with
      | some p => (readF p).map some
      | none => .ok input.dataBase64
    else .ok input.dataBase64
  match read with
  | .error e => .error e
  | .ok d =>
    if jsFalsyStr d then .error "InlineImageInput requires either dataBase64 or path"
    else .ok { mime_type := mime, data := d.getD "" }

/-- The loop of `toInlineDataParts`, pushing one resolved part per input. -/
def toInlineDataPartsList (readF : String → Except String String) :
    List InlineImageInput → Except String (List InlineDataPart)
  | [] => .ok []
  | input :: rest =>
    match resolveOne readF input with
    | .error e => .error e
    | .ok p =>
      match toInlineDataPartsList readF rest with
      | .error e => .error e
      | .ok ps => .ok (p :: ps)

/-- `toInlineDataParts`: `if (!inputs || inputs.length === 0) return []`, then the loop. -/
def toInlineDataParts (readF : String → Except String String)
    (inputs : Option (List InlineImageInput)) : Except String (List InlineDataPart) :=
  match inputs with
  | none => .ok []
  | some l => if l.isEmpty then .ok [] else toInlineDataPartsList readF l

/-- View an inline-data part as a request part. -/
def toReqPart (p : InlineDataPart) : ReqPart := .inline_data p.mime_type p.data

/-- `const parts = [textPart, ...imageParts]` in `callGeminiGenerate`. -/
def buildParts (readF : String → Except String String) (request : GenerateRequest) :
    Except String (List ReqPart) :=
  match toInlineDataParts readF request.images with
  | .error e => .error e
  | .ok imageParts => .ok (ReqPart.text request.prompt :: imageParts.map toReqPart)

/-! ### Response decoding -/

/-- `json.candidates?.[0]?.content?.parts ?? []`. -/
def firstParts (json : GeminiGenerateResponse) : List RespPart :=
  match json.candidates with
  | none => []
  | some cs =>
    match cs.head? with
    | none => []
    | some c =>
      match c.content with
      | none => []
      | some content => content.parts.getD []

/-- The extraction loop: collect every part whose `inlineData?.data` is truthy,
defaulting the MIME type to `image/png`. -/
def extractImages (json : GeminiGenerateResponse) : List DecodedImage :=
  (firstParts json).filterMap fun part =>
    match part.inlineData with
    | none => none
    | some idata =>
      match idata.data with
      | none => none
      | some d =>
        if d = "" then none
        else some { imageBase64 := d, mimeType := idata.mimeType.getD "image/png" }

/-! ### The retry loop -/

/-- Observable result of one fetch attempt. -/
inductive AttemptOutcome where
  | success (json : GeminiGenerateResponse)
  | httpError (status : Nat) (body : String)
  | timeout
  | exn (message : String)

/-- Message of the error thrown for a non-ok response:
`Gemini API error ${status}: ${errorText}`. -/
def geminiApiErrorMsg (status : Nat) (body : String) : String :=
  "Gemini API error " ++ natToString status ++ ": " ++ body

/-- Message thrown for an aborted attempt:
`Request timed out after ${REQUEST_TIMEOUT / 1000} seconds`. -/
def timeoutErrorMsg : String :=
  "Request timed out after " ++ natToString (REQUEST_TIMEOUT / 1000) ++ " seconds"

/-- Message thrown when a success response decodes to zero images. -/
def noImageDataMsg : String := "No image data returned by Gemini API"

/-- Bookkeeping for one consumed attempt before a retry. -/
def stepRetry (p : Except String (List DecodedImage) × Nat) :
    Except String (List DecodedImage) × Nat :=
  (p.1, p.2 + 1)

/-- The `for (let attempt = 0; attempt <= MAX_RETRIES; attempt++)` loop of
`callGeminiGenerate`.  Returns the result together with the number of fetches
issued.  Each thrown error inside the `try` block (the zero-image error and the
non-ok-status error) is caught by the loop's own `catch`, which rethrows only
`AbortError`s (as the timeout error) and errors on the final attempt, and
otherwise retries.  `fuel` is `MAX_RETRIES + 1 - attempt`; the fuel-exhausted
case corresponds to the unreachable `throw lastError` after the loop. -/
def geminiAttemptLoop (outcomes : Nat → AttemptOutcome) :
    Nat → Nat → Except String (List DecodedImage) × Nat
  | 0, _ => (.error "Max retries exceeded", 0)
  | fuel + 1, attempt =>
    match outcomes attempt with
    | .success json =>
      let images := extractImages json
      if images.isEmpty then
        -- throw new Error('No image data returned by Gemini API'), caught below
        if attempt = MAX_RETRIES then (.error noImageDataMsg, 1)
        else stepRetry (geminiAttemptLoop outcomes fuel (attempt + 1))
      else (.ok images, 1)
    | .httpError status body =>
      -- if (!shouldRetry(status) || attempt === MAX_RETRIES) throw error (caught below)
      if shouldRetry status = false ∨ attempt = MAX_RETRIES then
        if attempt = MAX_RETRIES then (.error (geminiApiErrorMsg status body), 1)
        else stepRetry (geminiAttemptLoop outcomes fuel (attempt + 1))
      else stepRetry (geminiAttemptLoop outcomes fuel (attempt + 1))
    | .timeout => (.error timeoutErrorMsg, 1)
    | .exn message =>
      if attempt = MAX_RETRIES then (.error message, 1)
      else stepRetry (geminiAttemptLoop outcomes fuel (attempt + 1))

/-- `callGeminiGenerate`: credential check, input resolution and part
construction, then the retry loop.  The second component counts network
fetches issued. -/
def callGeminiGenerate (apiKey : String) (readF : String → Except String String)
    (request : GenerateRequest) (outcomes : Nat → AttemptOutcome) :
    Except String (List DecodedImage) × Nat :=
  if apiKey = "" ∨ apiKey.trim = "" then
    (.error "GEMINI_API_KEY environment variable is required but not set or empty", 0)
  else
    match buildParts readF request with
    | .error e => (.error e, 0)
    | .ok _parts => geminiAttemptLoop outcomes (MAX_RETRIES + 1) 0

/-! ### Persistence path resolution (`maybeSaveImage`) -/

/-- Characters after the last slash of a path (the POSIX basename, for paths
with no trailing slash). -/
def afterLastSlash (cs : List Char) : List Char :=
  cs.foldl (fun acc c => if c = '/' then [] else acc ++ [c]) []

/-- Index of the last occurrence of a dot. -/
def lastDotIdx : List Char → Option Nat
  | [] => none
  | c :: rest =>
    match lastDotIdx rest with
    | some i => some (i + 1)
    | none => if c = '.' then some 0 else none

/-- Node's `path.extname`: the substring of the basename from its last dot,
or the empty string when the basename has no dot or only a leading dot. -/
def extname (p : String) : String :=
  let base := afterLastSlash p.data
  match lastDotIdx base with
  | none => ""
  | some 0 => ""
  | some i => String.mk (base.drop i)

/-- The `mimeToExt` record literal in `maybeSaveImage`. -/
def mimeToExtLookup (m : String) : Option String :=
  if m = "image/png" then some ".png"
  else if m = "image/jpeg" then some ".jpg"
  else if m = "image/jpg" then some ".jpg"
  else if m = "image/webp" then some ".webp"
  else if m = "image/gif" then some ".gif"
  else none

/-- ASCII lowercasing of one character, modelling `String.prototype.toLowerCase`
on the ASCII MIME-type strings involved. -/
def charLowerAscii (c : Char) : Char :=
  if 'A' ≤ c ∧ c ≤ 'Z' then Char.ofNat (c.toNat + 32) else c

/-- ASCII lowercasing of a string. -/
def strLowerAscii (s : String) : String := String.mk (s.data.map charLowerAscii)

/-- `mimeToExt[mimeType.toLowerCase()] || '.png'`. -/
def detectedExtOf (mimeType : String) : String :=
  (mimeToExtLookup (strLowerAscii mimeType)).getD ".png"

/-- The extension chosen by `maybeSaveImage`:
`const extension = providedExt || detectedExt`. -/
def saveExtension (targetPath mimeType : String) : String :=
  let providedExt := extname targetPath
  if providedExt = "" then detectedExtOf mimeType else providedExt

/-- The candidate path before collision handling:
`const basePath = providedExt ? targetPath : targetPath + extension`. -/
def savePathCandidate (targetPath mimeType : String) : String :=
  let providedExt := extname targetPath
  if providedExt = "" then targetPath ++ saveExtension targetPath mimeType
  else targetPath

/-- Node's `path.join(dir, file)` for a simple directory and file name. -/
def joinPath (dir file : String) : String := dir ++ "/" ++ file

/-- The path tried by the collision loop at counter `k`: the resolved base
path for `k = 0`, and `join(dir, name_k + extension)` for `k >= 1`. -/
def candPath (resolved dir name extension : String) (k : Nat) : String :=
  if k = 0 then resolved
  else joinPath dir (name ++ "_" ++ natToString k ++ extension)

/-- The `while (true)` collision loop of `maybeSaveImage`: while the current
path exists, increment the counter and retry with a `_counter` suffix before
the extension.  `fs` is the set of existing files; `fuel` bounds the model's
recursion (the fuel-exhausted case is unreachable for adequate fuel, proved
below). -/
def findFreePath (fs : List String) (dir name extension : String) :
    Nat → String → Nat → String
  | 0, finalPath, _ => finalPath
  | fuel + 1, finalPath, counter =>
    if finalPath ∈ fs then
      findFreePath fs dir name extension fuel
        (joinPath dir (name ++ "_" ++ natToString (counter + 1) ++ extension)) (counter + 1)
    else finalPath

/-- The final path written by `maybeSaveImage`, starting the collision loop
at the resolved candidate path with counter `0`. -/
def resolveWritePath (fs : List String) (resolved dir name extension : String) : String :=
  findFreePath fs dir name extension (fs.length + 2) resolved 0

/-! ### Tool handler result selection -/

/-- The parts of a tool-call response that carry image payloads. -/
structure ToolResponse where
  persistedImage : Option DecodedImage
  inlineImage : Option DecodedImage
deriving DecidableEq

/-- Common shape of the four tool handlers after the pipeline returns:
`const first = results[0]`, save `first` when a final save path is present
(`savePathFor first` models `saveToFilePath || (AUTO_SAVE ? ... : undefined)`
followed by `maybeSaveImage`, which depends on the call only through `first`),
and include `first` inline exactly when nothing was saved.  An empty result
list corresponds to the JS crash of reading a property of `undefined`. -/
def toolHandlerCore (results : List DecodedImage)
    (savePathFor : DecodedImage → Option String) : Except String ToolResponse :=
  match results.head? with
  | none => .error "TypeError: cannot read properties of undefined"
  | some first =>
    let savedPath := savePathFor first
    .ok { persistedImage := savedPath.map fun _ => first
          inlineImage := if savedPath.isSome then none else some first }

/-! ### Predicates and concrete fixtures used by the claims -/

/-- `sub` occurs as a contiguous substring of `s`. -/
def strContains (s sub : String) : Prop := sub.data <:+: s.data

instance (s sub : String) : Decidable (strContains s sub) :=
  inferInstanceAs (Decidable (sub.data <:+: s.data))

/-- The first `n` characters of `s`, modelling `s.substring(0, n)`. -/
def strTake (s : String) (n : Nat) : String := String.mk (s.data.take n)

/-- An input image that can deliver no bytes: no base64 data and either no
truthy path or an unreadable path. -/
def badInput (readF : String → Except String String) (input : InlineImageInput) : Prop :=
  jsFalsyStr input.dataBase64 = true ∧
    (jsFalsyStr input.path = true ∨
      ∃ p e, input.path = some p ∧ readF p = .error e)

/-- An attempt outcome that the loop retries when it is not the final attempt:
a non-ok status, a non-abort exception, or a success status decoding to zero
images. -/
def retryingOutcome : AttemptOutcome → Prop
  | .success json => extractImages json = []
  | .httpError _ _ => True
  | .timeout => False
  | .exn _ => True

/-- The single inline image part used by the concrete fixtures. -/
def oneImagePart : RespPart :=
  { inlineData := some { data := some "QUJD", mimeType := some "image/png" }, text := none }

/-- A success response carrying exactly one inline image part. -/
def oneImageResp : GeminiGenerateResponse :=
  { candidates := some [Candidate.mk (some (CandContent.mk (some [oneImagePart])))] }

/-- A text-only response part with no inline image data. -/
def textOnlyPart : RespPart :=
  { inlineData := none, text := some "content policy refusal" }

/-- A success response whose parts carry no inline image data. -/
def zeroImageResp : GeminiGenerateResponse :=
  { candidates := some [Candidate.mk (some (CandContent.mk (some [textOnlyPart])))] }

/-- Outcome tape: HTTP 200 with zero images on attempt 0, then a success. -/
def zeroThenSuccess : Nat → AttemptOutcome := fun n =>
  if n = 0 then .success zeroImageResp else .success oneImageResp

/-- Outcome tape: a timeout on attempt 0, then a success. -/
def timeoutThenSuccess : Nat → AttemptOutcome := fun n =>
  if n = 0 then .timeout else .success oneImageResp

/-- Outcome tape: HTTP 400 on attempt 0, then a success. -/
def err400ThenSuccess : Nat → AttemptOutcome := fun n =>
  if n = 0 then .httpError 400 "Bad Request" else .success oneImageResp

/-- Outcome tape: every attempt returns HTTP 200 with zero images. -/
def alwaysZeroImages : Nat → AttemptOutcome := fun _ => .success zeroImageResp

deriving instance DecidableEq for Except

/-! ### Lemmas: decimal rendering -/

theorem natDigitsAux_congr : ∀ f g n : Nat, n < f → n < g → natDigitsAux f n = natDigitsAux g n := by
  intro f
  induction f with
  | zero => intro g n hf _; omega
  | succ f ih =>
    intro g n hf hg
    cases g with
    | zero => omega
    | succ g =>
      simp only [natDigitsAux]
      by_cases h10 : n < 10
      · simp [h10]
      · have hd : n / 10 < n := Nat.div_lt_self (by omega) (by omega)
        simp only [h10, if_false]
        rw [ih g (n / 10) (by omega) (by omega)]

theorem natDigits_unfold (n : Nat) :
    natDigits n = if n < 10 then [Nat.digitChar n]
      else natDigits (n / 10) ++ [Nat.digitChar (n % 10)] := by
  show natDigitsAux (n + 1) n = _
  by_cases h10 : n < 10
  · simp [natDigitsAux, h10]
  · have hd : n / 10 < n := Nat.div_lt_self (by omega) (by omega)
    simp only [natDigitsAux, h10, if_false]
    rw [natDigitsAux_congr n (n / 10 + 1) (n / 10) (by omega) (by omega)]
    rfl

theorem natDigits_ne_nil (n : Nat) : natDigits n ≠ [] := by
  rw [natDigits_unfold]
  by_cases h10 : n < 10 <;> simp [h10]

theorem digitChar_inj_lt (a b : Nat) (ha : a < 10) (hb : b < 10)
    (h : Nat.digitChar a = Nat.digitChar b) : a = b := by
  interval_cases a <;> interval_cases b <;> revert h <;> decide

theorem natDigits_inj : ∀ n m : Nat, natDigits n = natDigits m → n = m := by
  intro n
  induction n using Nat.strong_induction_on with
  | _ n ih =>
    intro m h
    rw [natDigits_unfold n, natDigits_unfold m] at h
    by_cases hn : n < 10 <;> by_cases hm : m < 10
    · simp only [hn, hm, if_true, List.cons.injEq, and_true] at h
      exact digitChar_inj_lt n m hn hm h
    · exfalso
      simp only [hn, hm, if_true, if_false] at h
      have hlen := congrArg List.length h
      have hpos : 0 < (natDigits (m / 10)).length :=
        List.length_pos.mpr (natDigits_ne_nil (m / 10))
      simp only [List.length_cons, List.length_append, List.length_nil] at hlen
      omega
    · exfalso
      simp only [hn, hm, if_true, if_false] at h
      have hlen := congrArg List.length h
      have hpos : 0 < (natDigits (n / 10)).length :=
        List.length_pos.mpr (natDigits_ne_nil (n / 10))
      simp only [List.length_cons, List.length_append, List.length_nil] at hlen
      omega
    · simp only [hn, hm, if_false] at h
      obtain ⟨h1, h2⟩ := List.append_inj' h rfl
      have hd : n / 10 < n := Nat.div_lt_self (by omega) (by omega)
      have e1 : n / 10 = m / 10 := ih (n / 10) hd (m / 10) h1
      have e2 : n % 10 = m % 10 := by
        refine digitChar_inj_lt _ _ (Nat.mod_lt _ (by omega)) (Nat.mod_lt _ (by omega)) ?_
        simpa using h2
      omega

theorem natToString_inj (n m : Nat) (h : natToString n = natToString m) : n = m := by
  apply natDigits_inj
  have hdata := congrArg String.data h
  simpa [natToString] using hdata

/-! ### Lemmas: the retry loop -/

theorem geminiAttemptLoop_snd_le (outcomes : Nat → AttemptOutcome) :
    ∀ fuel attempt, (geminiAttemptLoop outcomes fuel attempt).2 ≤ fuel := by
  intro fuel
  induction fuel with
  | zero => intro attempt; simp [geminiAttemptLoop]
  | succ fuel ih =>
    intro attempt
    cases h : outcomes attempt with
    | success json =>
      simp only [geminiAttemptLoop, h]
      split_ifs <;>
        first
          | exact Nat.succ_le_succ (Nat.zero_le _)
          | exact Nat.succ_le_succ (ih (attempt + 1))
    | httpError status body =>
      simp only [geminiAttemptLoop, h]
      split_ifs <;>
        first
          | exact Nat.succ_le_succ (Nat.zero_le _)
          | exact Nat.succ_le_succ (ih (attempt + 1))
    | timeout =>
      simp only [geminiAttemptLoop, h]
      exact Nat.succ_le_succ (Nat.zero_le _)
    | exn message =>
      simp only [geminiAttemptLoop, h]
      split_ifs <;>
        first
          | exact Nat.succ_le_succ (Nat.zero_le _)
          | exact Nat.succ_le_succ (ih (attempt + 1))

theorem geminiAttemptLoop_const_httpError (s : Nat) (body : String) :
    ∀ fuel attempt, 0 < fuel → attempt + fuel = MAX_RETRIES + 1 →
      geminiAttemptLoop (fun _ => .httpError s body) fuel attempt
        = (.error (geminiApiErrorMsg s body), fuel) := by
  intro fuel
  induction fuel with
  | zero => intro attempt h0 _; omega
  | succ fuel ih =>
    intro attempt _ hsum
    by_cases hf : fuel = 0
    · subst hf
      have ha : attempt = MAX_RETRIES := by omega
      subst ha
      simp [geminiAttemptLoop]
    · have ha : attempt ≠ MAX_RETRIES := by omega
      have hrec := ih (attempt + 1) (by omega) (by omega)
      simp only [geminiAttemptLoop]
      by_cases hr : shouldRetry s = false
      · simp [hr, ha, hrec, stepRetry]
      · simp [hr, ha, hrec, stepRetry]

theorem geminiAttemptLoop_const_zeroImages (resp : GeminiGenerateResponse)
    (hresp : extractImages resp = []) :
    ∀ fuel attempt, 0 < fuel → attempt + fuel = MAX_RETRIES + 1 →
      geminiAttemptLoop (fun _ => .success resp) fuel attempt = (.error noImageDataMsg, fuel) := by
  intro fuel
  induction fuel with
  | zero => intro attempt h0 _; omega
  | succ fuel ih =>
    intro attempt _ hsum
    by_cases hf : fuel = 0
    · subst hf
      have ha : attempt = MAX_RETRIES := by omega
      subst ha
      simp [geminiAttemptLoop, hresp]
    · have ha : attempt ≠ MAX_RETRIES := by omega
      have hrec := ih (attempt + 1) (by omega) (by omega)
      simp only [geminiAttemptLoop]
      simp [hresp, ha, hrec, stepRetry]

theorem geminiAttemptLoop_timeout (outcomes : Nat → AttemptOutcome) :
    ∀ n attempt fuel : Nat, attempt + fuel = MAX_RETRIES + 1 →
      attempt + n ≤ MAX_RETRIES →
      (∀ k, k < n → retryingOutcome (outcomes (attempt + k))) →
      outcomes (attempt + n) = .timeout →
      geminiAttemptLoop outcomes fuel attempt = (.error timeoutErrorMsg, n + 1) := by
  intro n
  induction n with
  | zero =>
    intro attempt fuel hsum hle _ ht
    cases fuel with
    | zero => omega
    | succ fuel =>
      rw [Nat.add_zero] at ht
      simp [geminiAttemptLoop, ht]
  | succ n ih =>
    intro attempt fuel hsum hle hpre ht
    cases fuel with
    | zero => omega
    | succ fuel =>
      have hret := hpre 0 (by omega)
      rw [Nat.add_zero] at hret
      have ha : attempt ≠ MAX_RETRIES := by omega
      have hrec : geminiAttemptLoop outcomes fuel (attempt + 1) = (.error timeoutErrorMsg, n + 1) := by
        refine ih (attempt + 1) fuel (by omega) (by omega) ?_ ?_
        · intro k hk
          have := hpre (k + 1) (by omega)
          rwa [show attempt + (k + 1) = attempt + 1 + k by omega] at this
        · rwa [show attempt + 1 + n = attempt + (n + 1) by omega]
      cases h : outcomes attempt with
      | success json =>
        rw [h] at hret
        simp only [retryingOutcome] at hret
        simp only [geminiAttemptLoop, h]
        simp [hret, ha, hrec, stepRetry]
      | httpError status body =>
        simp only [geminiAttemptLoop, h]
        by_cases hr : shouldRetry status = false
        · simp [hr, ha, hrec, stepRetry]
        · simp [hr, ha, hrec, stepRetry]
      | timeout =>
        rw [h] at hret
        simp [retryingOutcome] at hret
      | exn message =>
        simp only [geminiAttemptLoop, h]
        simp [ha, hrec, stepRetry]

/-! ### Lemmas: collision loop -/

theorem strAppend_assoc (a b c : String) : a ++ b ++ c = a ++ (b ++ c) := by
  apply String.ext
  simp [String.data_append, List.append_assoc]

theorem findFreePath_stop (fs : List String) (dir name extension : String)
    (fuel : Nat) (current : String) (counter : Nat) (h : current ∉ fs) :
    findFreePath fs dir name extension (fuel + 1) current counter = current := by
  simp [findFreePath, h]

theorem candPath_succ (resolved dir name extension : String) (k : Nat) :
    candPath resolved dir name extension (k + 1)
      = joinPath dir (name ++ "_" ++ natToString (k + 1) ++ extension) := by
  simp [candPath]

theorem findFreePath_finds (fs : List String) (resolved dir name extension : String) (m : Nat)
    (hfree : candPath resolved dir name extension m ∉ fs) :
    ∀ fuel counter, counter ≤ m → m < counter + fuel →
      (∀ k, counter ≤ k → k < m → candPath resolved dir name extension k ∈ fs) →
      findFreePath fs dir name extension fuel (candPath resolved dir name extension counter) counter
        = candPath resolved dir name extension m := by
  intro fuel
  induction fuel with
  | zero => intro counter h1 h2 _; omega
  | succ fuel ih =>
    intro counter h1 h2 hall
    by_cases hcm : counter = m
    · subst hcm
      simp [findFreePath, hfree]
    · have hin : candPath resolved dir name extension counter ∈ fs :=
        hall counter (Nat.le_refl _) (by omega)
      simp only [findFreePath, hin, if_true]
      rw [← candPath_succ]
      exact ih (counter + 1) (by omega) (by omega) (fun k hk1 hk2 => hall k (by omega) hk2)

theorem candPath_inj_pos (resolved dir name extension : String) (a b : Nat)
    (ha : a ≠ 0) (hb : b ≠ 0)
    (h : candPath resolved dir name extension a = candPath resolved dir name extension b) :
    a = b := by
  simp only [candPath, ha, hb, if_false, joinPath] at h
  have hdata := congrArg String.data h
  simp only [String.data_append, List.append_assoc] at hdata
  have h1 := List.append_cancel_left hdata
  have h2 := List.append_cancel_left h1
  have h3 := List.append_cancel_left h2
  have h4 := List.append_cancel_left h3
  have h5 := List.append_cancel_right h4
  exact natToString_inj a b (String.ext h5)

theorem candPath_exists_free (fs : List String) (resolved dir name extension : String) :
    ∃ m, m ≤ fs.length + 1 ∧ candPath resolved dir name extension m ∉ fs := by
  by_contra hcon
  push_neg at hcon
  have hsub : (Finset.Icc 1 (fs.length + 1)).image (candPath resolved dir name extension)
      ⊆ fs.toFinset := by
    intro x hx
    simp only [Finset.mem_image, Finset.mem_Icc] at hx
    obtain ⟨k, ⟨_, hk2⟩, hkx⟩ := hx
    rw [List.mem_toFinset, ← hkx]
    exact hcon k hk2
  have hinj : Set.InjOn (candPath resolved dir name extension)
      ↑(Finset.Icc 1 (fs.length + 1)) := by
    intro a ha b hb hab
    simp only [Finset.coe_Icc, Set.mem_Icc] at ha hb
    exact candPath_inj_pos resolved dir name extension a b (by omega) (by omega) hab
  have hcard := Finset.card_le_card hsub
  rw [Finset.card_image_of_injOn hinj, Nat.card_Icc] at hcard
  have hle := List.toFinset_card_le fs
  omega

theorem resolveWritePath_spec (fs : List String) (resolved dir name extension : String) :
    ∃ m, resolveWritePath fs resolved dir name extension = candPath resolved dir name extension m
      ∧ candPath resolved dir name extension m ∉ fs
      ∧ ∀ k, k < m → candPath resolved dir name extension k ∈ fs := by
  obtain ⟨m0, hm0le, hm0free⟩ := candPath_exists_free fs resolved dir name extension
  have hex : ∃ m, candPath resolved dir name extension m ∉ fs := ⟨m0, hm0free⟩
  refine ⟨Nat.find hex, ?_, Nat.find_spec hex, fun k hk => not_not.mp (Nat.find_min hex hk)⟩
  have hfind_le : Nat.find hex ≤ m0 := Nat.find_min' hex hm0free
  have h := findFreePath_finds fs resolved dir name extension (Nat.find hex)
    (Nat.find_spec hex) (fs.length + 2) 0 (Nat.zero_le _) (by omega)
    (fun k _ hk2 => not_not.mp (Nat.find_min hex hk2))
  rw [show candPath resolved dir name extension 0 = resolved from rfl] at h
  exact h

theorem resolveWritePath_not_mem (fs : List String) (resolved dir name extension : String) :
    resolveWritePath fs resolved dir name extension ∉ fs := by
  obtain ⟨m, hm, hfree, _⟩ := resolveWritePath_spec fs resolved dir name extension
  rw [hm]
  exact hfree

/-! ### Lemmas: input resolution -/

theorem resolveOne_error_of_bad (readF : String → Except String String)
    (input : InlineImageInput) (hb : badInput readF input) :
    ∃ e, resolveOne readF input = .error e := by
  obtain ⟨hdata, hpath⟩ := hb
  by_cases hpf : jsFalsyStr input.path = true
  · refine ⟨"InlineImageInput requires either dataBase64 or path", ?_⟩
    simp [resolveOne, hdata, hpf]
  · have hpf' : jsFalsyStr input.path = false := by
      revert hpf; cases jsFalsyStr input.path <;> simp
    cases hpath with
    | inl h => exact absurd h hpf
    | inr hex =>
      obtain ⟨p, e, hp, hre⟩ := hex
      refine ⟨e, ?_⟩
      have hpf2 : jsFalsyStr (some p) = false := hp ▸ hpf'
      simp [resolveOne, hdata, hp, hpf2, hre, Except.map]

theorem toInlineDataPartsList_error_of_bad (readF : String → Except String String) :
    ∀ (l : List InlineImageInput) (input : InlineImageInput), input ∈ l →
      badInput readF input → ∃ e, toInlineDataPartsList readF l = .error e := by
  intro l
  induction l with
  | nil => intro input h; simp at h
  | cons a rest ih =>
    intro input hmem hb
    rcases List.mem_cons.mp hmem with rfl | hmem'
    · obtain ⟨e, he⟩ := resolveOne_error_of_bad readF input hb
      exact ⟨e, by simp [toInlineDataPartsList, he]⟩
    · cases ha : resolveOne readF a with
      | error e => exact ⟨e, by simp [toInlineDataPartsList, ha]⟩
      | ok p =>
        obtain ⟨e, he⟩ := ih input hmem' hb
        exact ⟨e, by simp [toInlineDataPartsList, ha, he]⟩

theorem toInlineDataParts_some (readF : String → Except String String)
    (l : List InlineImageInput) :
    toInlineDataParts readF (some l) = toInlineDataPartsList readF l := by
  cases l <;> simp [toInlineDataParts, toInlineDataPartsList]

theorem toInlineDataPartsList_ok (readF : String → Except String String) :
    ∀ (l : List InlineImageInput) (ps : List InlineDataPart),
      toInlineDataPartsList readF l = .ok ps →
      ps.length = l.length ∧
        ∀ i (hi : i < l.length), ps[i]? = (resolveOne readF (l.get ⟨i, hi⟩)).toOption := by
  intro l
  induction l with
  | nil =>
    intro ps h
    simp only [toInlineDataPartsList, Except.ok.injEq] at h
    subst h
    exact ⟨rfl, fun i hi => absurd hi (by simp)⟩
  | cons a rest ih =>
    intro ps h
    simp only [toInlineDataPartsList] at h
    cases ha : resolveOne readF a with
    | error e => rw [ha] at h; simp at h
    | ok p =>
      rw [ha] at h
      cases hr : toInlineDataPartsList readF rest with
      | error e => rw [hr] at h; simp at h
      | ok qs =>
        rw [hr] at h
        simp only [Except.ok.injEq] at h
        subst h
        obtain ⟨hlen, hidx⟩ := ih qs hr
        refine ⟨by simp [hlen], ?_⟩
        intro i hi
        cases i with
        | zero => simp [ha, Except.toOption]
        | succ i =>
          have := hidx i (by simpa using hi)
          simpa using this

/-! ### Claims -/

/-- C1: the claim states that a success status decoding to zero inline-image
parts fails terminally with no further attempt, on any attempt number.  The
code instead catches its own thrown zero-image error in the loop's `catch`
and retries: with zero images on attempt 0 and a one-image success on attempt
1, the call makes a second fetch and returns that image. -/
theorem c1_zero_images_retried_eval :
    extractImages zeroImageResp = []
    ∧ geminiAttemptLoop zeroThenSuccess (MAX_RETRIES + 1) 0
        = (.ok [DecodedImage.mk "QUJD" "image/png"], 2) := by
  exact ⟨rfl, rfl⟩

/-- C2 counterexample: a timeout on attempt 0 (a non-final attempt, since
MAX_RETRIES is 3) is not followed by attempt 1: the loop stops after a single
fetch with the timeout error, even though attempt 1 would have succeeded. -/
theorem c2_timeout_counterexample :
    geminiAttemptLoop timeoutThenSuccess (MAX_RETRIES + 1) 0
      = (.error "Request timed out after 60 seconds", 1)
    ∧ 0 < MAX_RETRIES
    ∧ extractImages oneImageResp ≠ [] := by
  refine ⟨rfl, by decide, by decide⟩

/-- C2 (amended): a timed-out attempt terminates the call immediately with
the timeout error on every attempt, final or not; timeouts are never
retried.  If the first `n` attempts are retried outcomes and attempt `n`
times out, the loop stops after attempt `n` with the timeout error. -/
theorem c2_timeout_always_terminal (outcomes : Nat → AttemptOutcome) (n : Nat)
    (hn : n ≤ MAX_RETRIES) (hpre : ∀ k, k < n → retryingOutcome (outcomes k))
    (ht : outcomes n = .timeout) :
    geminiAttemptLoop outcomes (MAX_RETRIES + 1) 0 = (.error timeoutErrorMsg, n + 1) := by
  refine geminiAttemptLoop_timeout outcomes n 0 (MAX_RETRIES + 1) rfl (by omega) ?_ ?_
  · intro k hk
    simpa using hpre k hk
  · simpa using ht

/-- Witness for C2 (amended): one retried HTTP 500 and then a timeout on
attempt 1 ends the call after two fetches with the timeout error. -/
theorem c2_timeout_always_terminal_witness :
    geminiAttemptLoop (fun k => if k = 0 then .httpError 500 "oops" else .timeout)
        (MAX_RETRIES + 1) 0 = (.error timeoutErrorMsg, 2) := by
  refine c2_timeout_always_terminal _ 1 (by decide) ?_ rfl
  intro k hk
  have hk0 : k = 0 := by omega
  subst hk0
  simp [retryingOutcome]

/-- C3: the claim states that attempt n proceeds to attempt n+1 iff the status
is 429 or in [500,599) and n < MAX_RETRIES, so HTTP 400 must fail permanently
with no further attempt.  The code instead catches its own thrown
permanent-error in the loop's `catch` and retries every error status while
attempts remain: with HTTP 400 on attempt 0 and a success on attempt 1, a
second fetch is made and the call succeeds.  (`shouldRetry 400` is indeed
`false`; the throw it guards is simply swallowed.  Also, `shouldRetry`
treats 599 as retryable, while the claim's range [500,599) excludes it.) -/
theorem c3_http400_retried_eval :
    shouldRetry 400 = false
    ∧ geminiAttemptLoop err400ThenSuccess (MAX_RETRIES + 1) 0
        = (.ok [DecodedImage.mk "QUJD" "image/png"], 2)
    ∧ shouldRetry 599 = true := by
  exact ⟨rfl, rfl, rfl⟩

/-- C4: for a prompt and up to 10 resolvable images, the constructed parts
list is the text prompt followed by the resolved inline-data parts, the i-th
input image occupying position i+1, in input order. -/
theorem c4_parts_order (readF : String → Except String String) (prompt : String)
    (mq sp : Option String) (inputs : List InlineImageInput) (ps : List InlineDataPart)
    (_hlen10 : inputs.length ≤ 10)
    (hok : toInlineDataParts readF (some inputs) = .ok ps) :
    buildParts readF (GenerateRequest.mk prompt (some inputs) mq sp)
        = .ok (ReqPart.text prompt :: ps.map toReqPart)
    ∧ (ReqPart.text prompt :: ps.map toReqPart)[0]? = some (ReqPart.text prompt)
    ∧ ps.length = inputs.length
    ∧ ∀ i (hi : i < inputs.length),
        (ReqPart.text prompt :: ps.map toReqPart)[i + 1]?
          = ((resolveOne readF (inputs.get ⟨i, hi⟩)).toOption).map toReqPart := by
  have hok' : toInlineDataPartsList readF inputs = .ok ps := by
    rw [← toInlineDataParts_some]; exact hok
  obtain ⟨hlen, hidx⟩ := toInlineDataPartsList_ok readF inputs ps hok'
  refine ⟨by simp [buildParts, hok], by simp, hlen, ?_⟩
  intro i hi
  have h := hidx i hi
  simp only [List.getElem?_cons_succ, List.getElem?_map, h]

/-- Witness for C4 at one concrete base64 input. -/
theorem c4_parts_order_witness :
    buildParts (fun _ => Except.error "io")
        (GenerateRequest.mk "draw" (some [InlineImageInput.mk (some "AA==") none none]) none none)
      = .ok [ReqPart.text "draw", ReqPart.inline_data "image/png" "AA=="] := by
  have h := c4_parts_order (fun _ => Except.error "io") "draw" none none
    [InlineImageInput.mk (some "AA==") none none] [InlineDataPart.mk "image/png" "AA=="]
    (by decide) (by decide)
  simpa using h.1

/-- C5: when the save-path hint carries an extension, it is kept regardless of
the MIME type; when it has none, the MIME-derived extension is appended.  In
particular `./out.png` with `image/jpeg` resolves to `./out.png`, and `./out`
with `image/jpeg` resolves to `./out.jpg`. -/
theorem c5_extension_resolution (hint mimeType : String) :
    (extname hint ≠ "" → savePathCandidate hint mimeType = hint)
    ∧ (extname hint = "" → savePathCandidate hint mimeType = hint ++ detectedExtOf mimeType)
    ∧ savePathCandidate "./out.png" "image/jpeg" = "./out.png"
    ∧ savePathCandidate "./out" "image/jpeg" = "./out.jpg" := by
  refine ⟨?_, ?_, by decide, by decide⟩
  · intro h
    simp [savePathCandidate, h]
  · intro h
    simp [savePathCandidate, saveExtension, h]

/-- Witness for C5 at the extensionless hint. -/
theorem c5_extension_resolution_witness :
    savePathCandidate "./out" "image/jpeg" = "./out" ++ detectedExtOf "image/jpeg" :=
  (c5_extension_resolution "./out" "image/jpeg").2.1 (by decide)

/-- C6: the written path is the candidate at the first free counter value
(`_1`, `_2`, ... inserted before the extension), so an existing file is never
overwritten; and when a save has just written the plain candidate path, an
immediately following save of the same synthesized name resolves to the `_1`
variant. -/
theorem c6_collision_avoidance (fs : List String) (resolved dir name extension : String) :
    resolveWritePath fs resolved dir name extension ∉ fs
    ∧ (∃ m, resolveWritePath fs resolved dir name extension
          = candPath resolved dir name extension m
        ∧ candPath resolved dir name extension m ∉ fs
        ∧ ∀ k, k < m → candPath resolved dir name extension k ∈ fs)
    ∧ (resolved = joinPath dir (name ++ extension) → resolved ∉ fs →
        resolveWritePath fs resolved dir name extension = resolved
        ∧ (joinPath dir (name ++ "_1" ++ extension) ∉ resolved :: fs →
            resolveWritePath (resolved :: fs) resolved dir name extension
              = joinPath dir (name ++ "_1" ++ extension))) := by
  refine ⟨resolveWritePath_not_mem fs resolved dir name extension,
    resolveWritePath_spec fs resolved dir name extension, ?_⟩
  intro _hres hfree
  have hone : joinPath dir (name ++ "_" ++ natToString 1 ++ extension)
      = joinPath dir (name ++ "_1" ++ extension) := by
    rw [show natToString 1 = "1" from rfl]
    rw [strAppend_assoc name "_" "1"]
    rw [show ("_" : String) ++ "1" = "_1" from by decide]
  constructor
  · exact findFreePath_stop fs dir name extension (fs.length + 1) resolved 0 hfree
  · intro h1free
    show findFreePath (resolved :: fs) dir name extension (fs.length + 3) resolved 0
      = joinPath dir (name ++ "_1" ++ extension)
    have hmem : resolved ∈ resolved :: fs := List.mem_cons_self resolved fs
    simp only [findFreePath, hmem, if_true]
    rw [hone]
    exact findFreePath_stop (resolved :: fs) dir name extension (fs.length + 1)
      (joinPath dir (name ++ "_1" ++ extension)) 1 h1free

/-- Witness for C6: a first save writes `/d/img.png`; repeating it with that
file now on disk writes `/d/img_1.png`. -/
theorem c6_collision_avoidance_witness :
    resolveWritePath [] "/d/img.png" "/d" "img" ".png" = "/d/img.png"
    ∧ resolveWritePath ["/d/img.png"] "/d/img.png" "/d" "img" ".png" = "/d/img_1.png" := by
  have h := (c6_collision_avoidance [] "/d/img.png" "/d" "img" ".png").2.2
    (by decide) (by decide)
  refine ⟨h.1, ?_⟩
  have h2 := h.2 (by decide)
  exact h2.trans (by decide)

/-- C7 counterexample: the claim states that every terminal provider error
other than a timeout surfaces the upstream HTTP status code and a truncated
response body.  A run whose every attempt returns HTTP 200 with zero images
terminates with the fixed message `No image data returned by Gemini API`,
which does not contain the status code 200 (nor any body text). -/
theorem c7_zero_image_error_lacks_status :
    geminiAttemptLoop alwaysZeroImages (MAX_RETRIES + 1) 0 = (.error noImageDataMsg, 4)
    ∧ ¬ strContains noImageDataMsg "200" := by
  exact ⟨rfl, by decide⟩

/-- C7 (amended): the timeout error contains the configured timeout value;
a terminal failure caused by an HTTP error status contains the status code
and the full response body (hence its 500-character truncation); but the
zero-image terminal failure surfaces a fixed message carrying neither. -/
theorem c7_error_message_contents (s : Nat) (body : String) (resp : GeminiGenerateResponse) :
    strContains timeoutErrorMsg (natToString (REQUEST_TIMEOUT / 1000))
    ∧ geminiAttemptLoop (fun _ => .httpError s body) (MAX_RETRIES + 1) 0
        = (.error (geminiApiErrorMsg s body), MAX_RETRIES + 1)
    ∧ strContains (geminiApiErrorMsg s body) (natToString s)
    ∧ strContains (geminiApiErrorMsg s body) (strTake body 500)
    ∧ (extractImages resp = [] →
        geminiAttemptLoop (fun _ => .success resp) (MAX_RETRIES + 1) 0
          = (.error noImageDataMsg, MAX_RETRIES + 1)) := by
  refine ⟨by decide, ?_, ?_, ?_, ?_⟩
  · exact geminiAttemptLoop_const_httpError s body (MAX_RETRIES + 1) 0 (by omega) rfl
  · refine ⟨("Gemini API error " : String).data, (": " ++ body : String).data, ?_⟩
    simp [geminiApiErrorMsg, String.data_append, List.append_assoc]
  · refine ⟨("Gemini API error " ++ natToString s ++ ": " : String).data,
      body.data.drop 500, ?_⟩
    have htake : (strTake body 500).data = body.data.take 500 := rfl
    simp [geminiApiErrorMsg, String.data_append, List.append_assoc, htake,
      List.take_append_drop]
  · intro h
    exact geminiAttemptLoop_const_zeroImages resp h (MAX_RETRIES + 1) 0 (by omega) rfl

/-- Witness for C7 (amended) at a concrete status, body and zero-image response. -/
theorem c7_error_message_contents_witness :
    strContains (geminiApiErrorMsg 503 "service melted") (natToString 503)
    ∧ strContains (geminiApiErrorMsg 503 "service melted") (strTake "service melted" 500)
    ∧ geminiAttemptLoop (fun _ => .success zeroImageResp) (MAX_RETRIES + 1) 0
        = (.error noImageDataMsg, MAX_RETRIES + 1) := by
  obtain ⟨_, _, h3, h4, h5⟩ := c7_error_message_contents 503 "service melted" zeroImageResp
  exact ⟨h3, h4, h5 rfl⟩

/-- C8: when the credential is absent or empty, or some provided image has
neither base64 data nor a readable truthy path, the call returns a typed
error and performs zero network fetches. -/
theorem c8_fail_fast (apiKey : String) (readF : String → Except String String)
    (request : GenerateRequest) (outcomes : Nat → AttemptOutcome)
    (h : apiKey = "" ∨ apiKey.trim = "" ∨
      ∃ inputs input, request.images = some inputs ∧ input ∈ inputs ∧ badInput readF input) :
    (∃ e, (callGeminiGenerate apiKey readF request outcomes).1 = .error e)
    ∧ (callGeminiGenerate apiKey readF request outcomes).2 = 0 := by
  by_cases hkey : apiKey = "" ∨ apiKey.trim = ""
  · constructor
    · refine ⟨"GEMINI_API_KEY environment variable is required but not set or empty", ?_⟩
      simp [callGeminiGenerate, hkey]
    · simp [callGeminiGenerate, hkey]
  · have himg : ∃ inputs input, request.images = some inputs ∧ input ∈ inputs
        ∧ badInput readF input := by tauto
    obtain ⟨inputs, input, hi, hmem, hb⟩ := himg
    obtain ⟨e, he⟩ := toInlineDataPartsList_error_of_bad readF inputs input hmem hb
    have hparts : buildParts readF request = .error e := by
      simp [buildParts, hi, toInlineDataParts_some, he]
    constructor
    · exact ⟨e, by simp [callGeminiGenerate, hkey, hparts]⟩
    · simp [callGeminiGenerate, hkey, hparts]

/-- Witness for C8: a nonempty key but an image with neither data nor path. -/
theorem c8_fail_fast_witness :
    (∃ e, (callGeminiGenerate "key" (fun _ => Except.error "ENOENT")
        (GenerateRequest.mk "p" (some [InlineImageInput.mk none none none]) none none)
        (fun _ => AttemptOutcome.timeout)).1 = .error e)
    ∧ (callGeminiGenerate "key" (fun _ => Except.error "ENOENT")
        (GenerateRequest.mk "p" (some [InlineImageInput.mk none none none]) none none)
        (fun _ => AttemptOutcome.timeout)).2 = 0 := by
  refine c8_fail_fast "key" (fun _ => Except.error "ENOENT")
    (GenerateRequest.mk "p" (some [InlineImageInput.mk none none none]) none none)
    (fun _ => AttemptOutcome.timeout) ?_
  right; right
  exact ⟨[InlineImageInput.mk none none none], InlineImageInput.mk none none none,
    rfl, by simp, rfl, Or.inl rfl⟩

/-- C9: at most 4 fetches are ever made (MAX_RETRIES = 3), and the delay
before a retry of attempt n is 1000 * 2 ^ n plus `Math.random() * 1000`
milliseconds, hence in [1000 * 2 ^ n, 1000 * 2 ^ n + 1000). -/
theorem c9_retry_budget_and_delay (apiKey : String) (readF : String → Except String String)
    (request : GenerateRequest) (outcomes : Nat → AttemptOutcome) :
    (callGeminiGenerate apiKey readF request outcomes).2 ≤ 4
    ∧ MAX_RETRIES = 3
    ∧ ∀ (n : Nat) (rand : ℚ), 0 ≤ rand → rand < 1 →
        (1000 : ℚ) * 2 ^ n ≤ calculateDelay n rand
        ∧ calculateDelay n rand < 1000 * 2 ^ n + 1000 := by
  refine ⟨?_, rfl, ?_⟩
  · unfold callGeminiGenerate
    split
    · exact Nat.zero_le 4
    · split
      · exact Nat.zero_le 4
      · exact geminiAttemptLoop_snd_le outcomes (MAX_RETRIES + 1) 0
  · intro n rand h0 h1
    unfold calculateDelay BASE_DELAY
    constructor
    · have hnn : (0 : ℚ) ≤ rand * 1000 := by positivity
      push_cast
      linarith
    · have hlt : rand * 1000 < 1000 := by nlinarith
      push_cast
      linarith

/-- Witness for C9 at a concrete call and a concrete jitter draw. -/
theorem c9_retry_budget_and_delay_witness :
    (callGeminiGenerate "k" (fun _ => Except.error "e")
        (GenerateRequest.mk "p" none none none) (fun _ => AttemptOutcome.timeout)).2 ≤ 4
    ∧ ((1000 : ℚ) * 2 ^ 2 ≤ calculateDelay 2 (1 / 2)
        ∧ calculateDelay 2 (1 / 2) < 1000 * 2 ^ 2 + 1000) := by
  obtain ⟨h1, _, h3⟩ := c9_retry_budget_and_delay "k" (fun _ => Except.error "e")
    (GenerateRequest.mk "p" none none none) (fun _ => AttemptOutcome.timeout)
  exact ⟨h1, h3 2 (1 / 2) (by norm_num) (by norm_num)⟩

/-- C10: a tool handler persists and returns only the head of the pipeline's
result list: its response is unchanged if the tail is dropped, and any image
it persists or returns inline is the first decoded image. -/
theorem c10_only_first_image_used (first : DecodedImage) (rest : List DecodedImage)
    (savePathFor : DecodedImage → Option String) :
    toolHandlerCore (first :: rest) savePathFor = toolHandlerCore [first] savePathFor
    ∧ ∀ resp img, toolHandlerCore (first :: rest) savePathFor = .ok resp →
        (resp.persistedImage = some img ∨ resp.inlineImage = some img) → img = first := by
  refine ⟨rfl, ?_⟩
  intro resp img hok hor
  simp only [toolHandlerCore, List.head?, Except.ok.injEq] at hok
  subst hok
  cases hs : savePathFor first with
  | none =>
    rw [hs] at hor
    simp at hor
    first
      | exact hor
      | exact hor.symm
  | some pth =>
    rw [hs] at hor
    simp at hor
    first
      | exact hor
      | exact hor.symm

/-- Witness for C10 at a two-image result list. -/
theorem c10_only_first_image_used_witness :
    toolHandlerCore [DecodedImage.mk "AA" "image/png", DecodedImage.mk "BB" "image/png"]
        (fun _ => some "/tmp/x.png")
      = toolHandlerCore [DecodedImage.mk "AA" "image/png"] (fun _ => some "/tmp/x.png")
    ∧ DecodedImage.mk "AA" "image/png" = DecodedImage.mk "AA" "image/png" := by
  have h := c10_only_first_image_used (DecodedImage.mk "AA" "image/png")
    [DecodedImage.mk "BB" "image/png"] (fun _ => some "/tmp/x.png")
  exact ⟨h.1, h.2 (ToolResponse.mk (some (DecodedImage.mk "AA" "image/png")) none)
    (DecodedImage.mk "AA" "image/png") rfl (Or.inl rfl)⟩
